import Mathlib

/-!
# eksdemo `pkg/resource/cluster/options.go`

A shallow embedding of the cluster option composer (`addOptions`) and of the
lifecycle hooks (`PreCreate`, `PreDelete`, `SetName`) of `ClusterOptions`.

Conventions of the embedding.

* Mutation is explicit state passing: a function that mutates its receiver
  returns the updated record.  The applications in `appsForIrsa` and their
  dependencies are held by value: distinct elements are distinct objects (the
  constructors `NewApp()` build fresh ones), and no pointer is nil.
* Two pointers are kept as pointers, because `options.go` writes through
  them: the entries of `IrsaRoles`, which point at dependencies of the
  candidate applications (`ResourcePtr`), and the `CommonOptions` pointer of
  the node-group options, which `addOptions` aims at the cluster's own common
  options (`CommonPtr`).
* Collaborators that live outside `options.go` (the AWS environment, the
  CloudFormation client, the node-group hook, `net.ParseCIDR`, the
  constructors of the candidate applications) are parameters.
* A Go `error` is a message together with the chain of wrapped messages.
-/

namespace Eksdemo

/-! ## Go runtime helpers -/

/-- A Go `error`: the text of `Error()` and the texts of the errors it wraps
(outermost first), the chain that `errors.Unwrap` walks. -/
structure GoError where
  msg : String
  chain : List String := []
deriving DecidableEq

/-- The call `fmt.Errorf(format + "%w", err)` whose format is a literal text
followed by the wrapped error. -/
def Errorf_w (format : String) (err : GoError) : GoError :=
  { msg := format ++ err.msg, chain := err.msg :: err.chain }

/-- Go `strings.HasPrefix(s, prefix)`. -/
def HasPrefix (s pre : String) : Bool :=
  pre.data.isPrefixOf s.data

/-- The helper `awssdk.ToString`: dereferences a `*string`, nil gives `""`. -/
def ToString : Option String → String
  | some s => s
  | none => ""

/-! ## Data model -/

/-- The fields of `resource.CommonOptions` that `options.go` and the contracts
of its collaborators read or write. -/
structure CommonOptions where
  Name : String := ""
  Account : String := ""
  ClusterName : String := ""
  ClusterFlagDisabled : Bool := false
  KubernetesVersion : String := ""
  Namespace : String := ""
  Partition : String := ""
  Region : String := ""
  ServiceAccount : String := ""
deriving DecidableEq

/-- A dependency `*resource.Resource`: `Name` is the field that
`res.Name != "irsa"` reads (the name of the resource kind, promoted from the
embedded command descriptor), `Options` is what `res.Common()` points to. -/
structure Resource where
  Name : String
  Options : CommonOptions := {}
deriving DecidableEq

/-- The fields of the record that `app.Common()` points to, as far as
`options.go` and the contract of the common-options propagator name them. -/
structure ApplicationOptions where
  Account : String := ""
  ClusterName : String := ""
  Namespace : String := ""
  Partition : String := ""
  Region : String := ""
  ServiceAccount : String := ""
deriving DecidableEq

/-- An `*application.Application`: `Options` is what `app.Common()` points to. -/
structure Application where
  Options : ApplicationOptions := {}
  Dependencies : List Resource := []
deriving DecidableEq

/-- Where the embedded `*resource.CommonOptions` of the node-group options
points: at the common options embedded in the cluster options (line 65 of
`addOptions` aims it there), or at a record of its own. -/
inductive CommonPtr where
  | cluster
  | other (target : CommonOptions)
deriving DecidableEq

/-- The fields of `nodegroup.NodegroupOptions` that `options.go` touches.  The
cluster options embed both `resource.CommonOptions` and the node-group options
and still select `o.KubernetesVersion`, so the node-group options have no
version field of their own: `o.NodegroupOptions.KubernetesVersion` is promoted
from the record their `CommonOptions` pointer points to. -/
structure NodegroupOptions where
  CommonOptions : CommonPtr := .cluster
  DesiredCapacity : Int := 0
  NodegroupName : String := ""
deriving DecidableEq

/-- A `*resource.Resource` held in `IrsaRoles`.  The loops of `PreCreate`
append pointers to dependencies of the candidate applications, and such a
pointer is kept as the position of the application in `appsForIrsa` and the
position of the dependency in its `Dependencies`: what it points to is read
from the applications, so a later write to the dependency shows through it.  A
pointer to any other resource is kept by value. -/
inductive ResourcePtr where
  | dependency (app : Nat) (index : Nat)
  | outside (res : Resource)
deriving DecidableEq

/-- The type `template.TextTemplate`. -/
structure TextTemplate where
  Template : String
deriving DecidableEq

/-- The struct `ClusterOptions`; the embedded `resource.CommonOptions` is the
parent structure, so its fields are promoted as in Go. -/
structure ClusterOptions extends CommonOptions where
  NodegroupOptions : NodegroupOptions := {}
  Fargate : Bool := false
  IPv6 : Bool := false
  NoRoles : Bool := false
  PrefixAssignment : Bool := false
  Private : Bool := false
  VpcCidr : String := ""
  appsForIrsa : List Application := []
  IrsaTemplate : Option TextTemplate := none
  IrsaRoles : List ResourcePtr := []
deriving DecidableEq

/-- The resource that a pointer held in `o.IrsaRoles` points to. -/
def ClusterOptions.deref (o : ClusterOptions) : ResourcePtr → Option Resource
  | .dependency app index => o.appsForIrsa[app]?.bind fun a => a.Dependencies[index]?
  | .outside res => some res

/-- The binding-request descriptors of `o`: what the entries of `o.IrsaRoles`
point to, in order. -/
def ClusterOptions.bindingRequests (o : ClusterOptions) : List Resource :=
  o.IrsaRoles.filterMap o.deref

/-- The record that `o.NodegroupOptions.CommonOptions` points to. -/
def ClusterOptions.nodegroupCommon (o : ClusterOptions) : CommonOptions :=
  match o.NodegroupOptions.CommonOptions with
  | .cluster => o.toCommonOptions
  | .other target => target

/-- A store through the pointer `o.NodegroupOptions.CommonOptions`. -/
def ClusterOptions.setNodegroupCommon (o : ClusterOptions) (c : CommonOptions) :
    ClusterOptions :=
  match o.NodegroupOptions.CommonOptions with
  | .cluster => { o with toCommonOptions := c }
  | .other _ => { o with NodegroupOptions := { o.NodegroupOptions with CommonOptions := .other c } }

/-- What the package `aws` answers during one call: `aws.AccountId()`,
`aws.Partition()` and `aws.Region()`. -/
structure AwsEnv where
  AccountId : String
  Partition : String
  Region : String
deriving DecidableEq

/-! ## PreDelete -/

/-- A CloudFormation stack as returned by the lookup; `StackName` is a
`*string`. -/
structure Stack where
  StackName : Option String
deriving DecidableEq

/-- The CloudFormation collaborators over a provider state `σ`: the lookup
`NewGetter(client).GetStacksByCluster(clusterName, stackType)` and the call
`client.DeleteStack(stackName)`, which may change the provider state. -/
structure CloudformationClient (σ : Type) where
  GetStacksByCluster : σ → String → String → Except GoError (List Stack)
  DeleteStack : σ → String → σ × Option GoError

/-- The observable outcome of the deletion loop: the provider state, the stack
names printed by `fmt.Printf`, the names passed to `DeleteStack` (in call
order), the names whose deletion returned nil, and the returned error. -/
structure DeleteRun (σ : Type) where
  state : σ
  printed : List String
  attempted : List String
  deleted : List String
  err : Option GoError

/-- The loop `for _, stack := range stacks` of `PreDelete` (lines 173-182). -/
def deleteLoop {σ : Type} (client : CloudformationClient σ) : List Stack → σ → DeleteRun σ
  | [], s => { state := s, printed := [], attempted := [], deleted := [], err := none }
  | stack :: rest, s =>
    let stackName := ToString stack.StackName
    if HasPrefix stackName "eksdemo-" then
      match client.DeleteStack s stackName with
      | (s', some err) =>
        { state := s', printed := [stackName], attempted := [stackName], deleted := [],
          err := some err }
      | (s', none) =>
        let r := deleteLoop client rest s'
        { r with printed := stackName :: r.printed, attempted := stackName :: r.attempted,
                 deleted := stackName :: r.deleted }
    else
      deleteLoop client rest s

/-- The method `(*ClusterOptions).PreDelete` (lines 164-185): the updated
options together with the run of the deletion loop. -/
def PreDelete {σ : Type} (env : AwsEnv) (client : CloudformationClient σ) (s : σ)
    (o : ClusterOptions) : ClusterOptions × DeleteRun σ :=
  let o := { o with Region := env.Region }
  match client.GetStacksByCluster s o.ClusterName "" with
  | .error err =>
    (o, { state := s, printed := [], attempted := [], deleted := [], err := some err })
  | .ok stackList => (o, deleteLoop client stackList s)

/-- The names of the stacks eligible for deletion: those starting with the
reserved text `eksdemo-`, in lookup order. -/
def eligibleNames (stackList : List Stack) : List String :=
  (stackList.map fun stack => ToString stack.StackName).filter fun n => HasPrefix n "eksdemo-"

/-- The provider state after the deletions of `names`, one after the other
from state `s`, when every one of them succeeds; `none` when one fails. -/
def deleteAll {σ : Type} (client : CloudformationClient σ) : List String → σ → Option σ
  | [], s => some s
  | n :: rest, s =>
    match client.DeleteStack s n with
    | (s', none) => deleteAll client rest s'
    | (_, some _) => none

/-! ### A sample CloudFormation provider

The provider state is the list of stack names that still exist; deleting a
name listed in `failing` returns an error and leaves the state alone. -/

/-- A provider whose lookup returns `stackList` and whose `DeleteStack` fails
exactly on the names in `failing`. -/
def sampleClient (stackList : List Stack) (failing : List String) :
    CloudformationClient (List String) where
  GetStacksByCluster := fun _ _ _ => .ok stackList
  DeleteStack := fun live n =>
    if n ∈ failing then (live, some { msg := "cannot delete " ++ n })
    else (live.filter (fun m => m ≠ n), none)

/-- The three stacks of the spec's example. -/
def sampleStacks : List Stack :=
  [⟨some "eksdemo-a"⟩, ⟨some "other-b"⟩, ⟨some "eksdemo-c"⟩]

/-! ## PreCreate -/

/-- Modelled from the spec: `(*Application).AssignCommonResourceOptions` is
not in `options.go`.  The common-options propagator "copies a fixed set of
identity fields (account, cluster name, namespace, partition, service-account)
from a source configuration" onto the target descriptor; the comment above
its call site (line 149) lists the region with them.  The receiver is given by
what `app.Common()` points to. -/
def AssignCommonResourceOptions (app : ApplicationOptions) (res : Resource) : Resource :=
  { res with Options :=
      { res.Options with
        Account := app.Account
        ClusterName := app.ClusterName
        Namespace := app.Namespace
        Partition := app.Partition
        Region := app.Region
        ServiceAccount := app.ServiceAccount } }

/-- Modelled from the spec: `(*Resource).SetName` is not in `options.go`.  It
is the `SetName` of the resource's options ("set the dependency resource's
name"), which stores the name in the options record; the kind name that
`res.Name` reads is left alone. -/
def Resource.SetName (res : Resource) (name : String) : Resource :=
  { res with Options := { res.Options with Name := name } }

/-- The state threaded through the loops of `PreCreate`: what `app.Common()`
points to for the application at hand, and `o.IrsaRoles`. -/
structure IrsaState where
  app : ApplicationOptions
  roles : List ResourcePtr
deriving DecidableEq

/-- The loop `for _, res := range app.Dependencies` (lines 145-158) for the
application at position `i`, from the dependency at position `j` on.  `o` is
read for its identity fields only; the result is the dependencies as the loop
leaves them and the final state. -/
def dependencyLoop (o : ClusterOptions) (i : Nat) :
    Nat → List Resource → IrsaState → List Resource × IrsaState
  | _, [], st => ([], st)
  | j, res :: rest, st =>
    if res.Name ≠ "irsa" then
      let r := dependencyLoop o i (j + 1) rest st
      (res :: r.1, r.2)
    else
      let app := { st.app with Account := o.Account }
      let app := { app with ClusterName := o.ClusterName }
      let app := { app with Region := o.Region }
      let app := { app with Partition := o.Partition }
      let res := AssignCommonResourceOptions app res
      let res := res.SetName app.ServiceAccount
      let r := dependencyLoop o i (j + 1) rest
        { app := app, roles := st.roles ++ [.dependency i j] }
      (res :: r.1, r.2)

/-- The loop `for _, app := range o.appsForIrsa` (lines 144-159) from the
application at position `i` on: the applications as the loop leaves them and
the final `o.IrsaRoles`. -/
def applicationLoop (o : ClusterOptions) :
    Nat → List Application → List ResourcePtr → List Application × List ResourcePtr
  | _, [], roles => ([], roles)
  | i, app :: rest, roles =>
    let d := dependencyLoop o i 0 app.Dependencies { app := app.Options, roles := roles }
    let r := applicationLoop o (i + 1) rest d.2.roles
    ({ Options := d.2.app, Dependencies := d.1 } :: r.1, r.2)

/-- What the receiver of the node-group hook reaches: the record its
`CommonOptions` pointer points to and its own fields. -/
structure NodegroupView where
  Common : CommonOptions
  DesiredCapacity : Int
  NodegroupName : String
deriving DecidableEq

/-- The view of the node-group options of `o`. -/
def ClusterOptions.nodegroupView (o : ClusterOptions) : NodegroupView :=
  { Common := o.nodegroupCommon
    DesiredCapacity := o.NodegroupOptions.DesiredCapacity
    NodegroupName := o.NodegroupOptions.NodegroupName }

/-- The options after the node-group options were left as `v`. -/
def ClusterOptions.setNodegroupView (o : ClusterOptions) (v : NodegroupView) :
    ClusterOptions :=
  let o := o.setNodegroupCommon v.Common
  { o with NodegroupOptions :=
      { o.NodegroupOptions with
        DesiredCapacity := v.DesiredCapacity, NodegroupName := v.NodegroupName } }

/-- The hook `(*NodegroupOptions).PreCreate`, a collaborator outside
`options.go`: it may rewrite what its receiver reaches (it does not aim the
pointer elsewhere) and returns an error or nil. -/
abbrev NodegroupPreCreate : Type := NodegroupView → NodegroupView × Option GoError

/-- The method `(*ClusterOptions).PreCreate` (lines 137-162). -/
def PreCreate (env : AwsEnv) (ngPreCreate : NodegroupPreCreate) (o : ClusterOptions) :
    ClusterOptions × Option GoError :=
  let o := { o with Account := env.AccountId }
  let o := { o with Partition := env.Partition }
  let o := { o with Region := env.Region }
  let o := o.setNodegroupCommon
    { o.nodegroupCommon with KubernetesVersion := o.KubernetesVersion }
  let l := applicationLoop o 0 o.appsForIrsa o.IrsaRoles
  let o := { o with appsForIrsa := l.1, IrsaRoles := l.2 }
  let r := ngPreCreate o.nodegroupView
  (o.setNodegroupView r.1, r.2)

/-- The method `(*ClusterOptions).SetName` (lines 187-189). -/
def ClusterOptions.SetName (o : ClusterOptions) (name : String) : ClusterOptions :=
  { o with ClusterName := name }

/-- A hook that returns nil and changes nothing. -/
def idleNodegroupPreCreate : NodegroupPreCreate :=
  fun v => (v, none)

/-! ### The expansion in the words of the specification -/

/-- Whether a dependency denotes an identity-binding resource. -/
def isIrsa (res : Resource) : Bool := res.Name == "irsa"

/-- The binding request made from dependency `res` of application `app`: the
resolved account, cluster name, region and partition, the application's
namespace and service account, and the service-account name as its name. -/
def bindingRequest (env : AwsEnv) (clusterName : String) (app : Application)
    (res : Resource) : Resource :=
  { Name := res.Name
    Options :=
      { res.Options with
        Name := app.Options.ServiceAccount
        Account := env.AccountId
        ClusterName := clusterName
        Namespace := app.Options.Namespace
        Partition := env.Partition
        Region := env.Region
        ServiceAccount := app.Options.ServiceAccount } }

/-- The positions of the identity-binding dependencies in `deps`, counted
from `j`, as pointers into the application at position `i`. -/
def dependencyPointers (i j : Nat) (deps : List Resource) : List ResourcePtr :=
  ((deps.enumFrom j).filter fun q => isIrsa q.2).map fun q => .dependency i q.1

/-- One pointer per (application, identity-binding dependency) pair, in
application order then dependency order. -/
def irsaPointers (apps : List Application) : List ResourcePtr :=
  apps.enum.flatMap fun p => dependencyPointers p.1 0 p.2.Dependencies

/-- One binding request per (application, identity-binding dependency) pair,
in application order then dependency order. -/
def irsaExpansion (env : AwsEnv) (clusterName : String) (apps : List Application) :
    List Resource :=
  apps.flatMap fun app => (app.Dependencies.filter isIrsa).map (bindingRequest env clusterName app)

/-- The number of applications that have an identity-binding dependency. -/
def appsWithIrsa (apps : List Application) : Nat :=
  apps.countP fun app => app.Dependencies.any isIrsa

/-- The number of (application, identity-binding dependency) pairs. -/
def irsaPairs (apps : List Application) : Nat :=
  (apps.map fun app => app.Dependencies.countP isIrsa).sum

/-! ## The option composer -/

/-- The type `*cobra.Command`, reduced to its `Use` line. -/
structure CobraCommand where
  Use : String := ""
deriving DecidableEq

/-- The type `net.IPNet` with byte lists for the address and the mask. -/
structure IPNet where
  IP : List Nat
  Mask : List Nat
deriving DecidableEq

/-- The standard-library function `net.ParseCIDR`, a parameter of the
embedding: the address and network on success, the parse error otherwise. -/
abbrev CIDRParser : Type := String → Except GoError (List Nat × IPNet)

/-- A string is a syntactically valid CIDR when `net.ParseCIDR` accepts it. -/
def validCIDR (ParseCIDR : CIDRParser) (s : String) : Bool :=
  match ParseCIDR s with
  | .ok _ => true
  | .error _ => false

/-- The `Validate` closure of the `vpc-cidr` flag (lines 120-126).  The closure
captures the options pointer, so it is a function of the options at the time
of the call; it returns them with the error. -/
def vpcCidrValidate (ParseCIDR : CIDRParser) (options : ClusterOptions)
    (_cmd : CobraCommand) (_args : List String) : ClusterOptions × Option GoError :=
  match ParseCIDR options.VpcCidr with
  | .error err => (options, some (Errorf_w "failed parsing --vpc-cidr, " err))
  | .ok _ => (options, none)

/-- The struct `cmd.CommandFlag`. -/
structure CommandFlag where
  Name : String
  Description : String := ""
  Shorthand : String := ""
  Validate : Option (ClusterOptions → CobraCommand → List String →
    ClusterOptions × Option GoError) := none

/-- A `*string` or `*bool` aimed into the options: reading and writing through
the pointer. -/
structure Ref (α : Type) where
  get : ClusterOptions → α
  set : ClusterOptions → α → ClusterOptions

/-- The elements of `cmd.Flags`: string flags, boolean flags, and any other
implementation of the flag interface, kept by its `CommandFlag`. -/
inductive Flag where
  | StringFlag (CommandFlag : CommandFlag) (Choices : List String) (Binding : Ref String)
  | BoolFlag (CommandFlag : CommandFlag) (Binding : Ref Bool)
  | Other (CommandFlag : CommandFlag)

/-- The `CommandFlag` embedded in a flag. -/
def Flag.Common : Flag → CommandFlag
  | .StringFlag c _ _ => c
  | .BoolFlag c _ => c
  | .Other c => c

/-- The name of a flag. -/
def Flag.Name (f : Flag) : String := f.Common.Name

/-- The choices of a flag: those of a string flag, none otherwise. -/
def Flag.Choices : Flag → List String
  | .StringFlag _ cs _ => cs
  | _ => []

/-- The view of the `*resource.Resource` that `addOptions` decorates: its
options (nil, or cluster options) and its create flags. -/
structure ClusterResource where
  Name : String := ""
  Options : Option ClusterOptions := none
  CreateFlags : List Flag := []

/-- The package-level collaborators of `addOptions`: the triple returned by
`nodegroup.NewOptions()`, the four `NewApp()` results, `irsa.EksctlTemplate`
and `net.ParseCIDR`. -/
structure Collaborators where
  ngOptions : NodegroupOptions
  ngFlags : List Flag
  ngUpdateFlags : List Flag := []
  aws_lb_controller : Application
  ebs_csi : Application
  external_dns : Application
  karpenter : Application
  EksctlTemplate : String
  ParseCIDR : CIDRParser

/-- The options built by `addOptions` (lines 42-67); `ngOptions` is the object
that `options.NodegroupOptions` points to, so the three assignments of lines
65-67 show in `options`. -/
def newClusterOptions (k : Collaborators) : ClusterOptions :=
  let ngOptions := k.ngOptions
  let options : ClusterOptions :=
    { ClusterFlagDisabled := true
      KubernetesVersion := "1.26"
      NodegroupOptions := ngOptions
      NoRoles := false
      VpcCidr := "192.168.0.0/16"
      appsForIrsa := [k.aws_lb_controller, k.ebs_csi, k.external_dns, k.karpenter]
      IrsaTemplate := some { Template := k.EksctlTemplate } }
  let ngOptions := { options.NodegroupOptions with CommonOptions := .cluster }
  let ngOptions := { ngOptions with DesiredCapacity := 2 }
  let ngOptions := { ngOptions with NodegroupName := "main" }
  { options with NodegroupOptions := ngOptions }

/-- The literal `cmd.Flags{...}` of `addOptions` (lines 71-130). -/
def clusterFlags (ParseCIDR : CIDRParser) : List Flag :=
  [ .StringFlag
      { Name := "version", Description := "Kubernetes version", Shorthand := "v" }
      ["1.26", "1.25", "1.24", "1.23", "1.22"]
      { get := fun o => o.KubernetesVersion, set := fun o v => { o with KubernetesVersion := v } },
    .BoolFlag
      { Name := "fargate", Description := "create a Fargate profile" }
      { get := fun o => o.Fargate, set := fun o v => { o with Fargate := v } },
    .BoolFlag
      { Name := "ipv6", Description := "use IPv6 networking" }
      { get := fun o => o.IPv6, set := fun o v => { o with IPv6 := v } },
    .BoolFlag
      { Name := "no-roles", Description := "don't create IAM roles" }
      { get := fun o => o.NoRoles, set := fun o v => { o with NoRoles := v } },
    .BoolFlag
      { Name := "prefix-assignment", Description := "configured VPC CNI for prefix assignment" }
      { get := fun o => o.PrefixAssignment, set := fun o v => { o with PrefixAssignment := v } },
    .BoolFlag
      { Name := "private",
        Description := "private cluster (includes ECR, S3, and other VPC endpoints)" }
      { get := fun o => o.Private, set := fun o v => { o with Private := v } },
    .StringFlag
      { Name := "vpc-cidr", Description := "CIDR to use for EKS Cluster VPC",
        Validate := some (vpcCidrValidate ParseCIDR) }
      []
      { get := fun o => o.VpcCidr, set := fun o v => { o with VpcCidr := v } } ]

/-- The function `addOptions` (lines 41-135). -/
def addOptions (k : Collaborators) (res : ClusterResource) : ClusterResource :=
  let options := newClusterOptions k
  let res := { res with Options := some options }
  let flags := clusterFlags k.ParseCIDR
  let res := { res with CreateFlags := k.ngFlags ++ flags }
  res

/-- A stand-in for `net.ParseCIDR` on a handful of inputs: the two listed
ranges parse, every other string gives the parse error of the library. -/
def sampleParseCIDR : CIDRParser := fun s =>
  if s = "192.168.0.0/16" then
    .ok ([192, 168, 0, 0], { IP := [192, 168, 0, 0], Mask := [255, 255, 0, 0] })
  else if s = "10.0.0.0/8" then
    .ok ([10, 0, 0, 0], { IP := [10, 0, 0, 0], Mask := [255, 0, 0, 0] })
  else
    .error { msg := "invalid CIDR address: " ++ s }

/-- Sample collaborators: a node-group option set with two inherited flags and
four applications, three of them with an identity-binding dependency. -/
def sampleCollaborators : Collaborators where
  ngOptions :=
    { CommonOptions := .other { ClusterFlagDisabled := false }
      DesiredCapacity := 1, NodegroupName := "" }
  ngFlags := [.Other { Name := "instance", Shorthand := "i" }, .Other { Name := "nodes" }]
  aws_lb_controller :=
    { Options := { Namespace := "awslb", ServiceAccount := "aws-load-balancer-controller" }
      Dependencies := [{ Name := "irsa", Options := { Name := "aws-lb-controller-irsa" } }] }
  ebs_csi :=
    { Options := { Namespace := "kube-system", ServiceAccount := "ebs-csi-controller-sa" }
      Dependencies := [{ Name := "irsa", Options := { Name := "ebs-csi-irsa" } }] }
  external_dns :=
    { Options := { Namespace := "external-dns", ServiceAccount := "external-dns" }
      Dependencies := [{ Name := "irsa", Options := { Name := "external-dns-irsa" } }] }
  karpenter :=
    { Options := { Namespace := "karpenter", ServiceAccount := "karpenter" }
      Dependencies := [{ Name := "iam-role", Options := { Name := "karpenter-node-role" } }] }
  EksctlTemplate := "eksctl create iamserviceaccount"
  ParseCIDR := sampleParseCIDR

/-- A sample answer of the package `aws`. -/
def sampleEnv : AwsEnv :=
  { AccountId := "123456789012", Partition := "aws", Region := "us-west-2" }

/-! ### Closed forms used in the proofs -/

/-- The four assignments of lines 150-153 on what `app.Common()` points to. -/
def stampIdentity (o : ClusterOptions) (app : ApplicationOptions) : ApplicationOptions :=
  { app with
    Account := o.Account
    ClusterName := o.ClusterName
    Region := o.Region
    Partition := o.Partition }

/-- Lines 150-155 on one dependency: the dependency as the loop body leaves it. -/
def populate (o : ClusterOptions) (app : ApplicationOptions) (res : Resource) : Resource :=
  (AssignCommonResourceOptions (stampIdentity o app) res).SetName
    (stampIdentity o app).ServiceAccount

/-- The options as `PreCreate` has them when its loops start (lines 138-141). -/
def resolved (env : AwsEnv) (o : ClusterOptions) : ClusterOptions :=
  let o := { o with Account := env.AccountId, Partition := env.Partition, Region := env.Region }
  o.setNodegroupCommon { o.nodegroupCommon with KubernetesVersion := o.KubernetesVersion }

/-- A hook that sets the version of the common options it reaches to 1.22 and
returns nil. -/
def pinningNodegroupPreCreate : NodegroupPreCreate :=
  fun v => ({ v with Common := { v.Common with KubernetesVersion := "1.22" } }, none)

/-- A sample configuration: the one `addOptions` builds, named `blue`. -/
def sampleOptions : ClusterOptions :=
  (newClusterOptions sampleCollaborators).SetName "blue"

/-- An application with two identity-binding dependencies. -/
def twoRoleApp : Application :=
  { Options := { Namespace := "kube-system", ServiceAccount := "controller" }
    Dependencies := [{ Name := "irsa" }, { Name := "irsa", Options := { Name := "second" } }] }

/-! ## Theorems about PreDelete -/

theorem eligibleNames_nil : eligibleNames [] = [] := rfl

theorem eligibleNames_cons (stack : Stack) (rest : List Stack) :
    eligibleNames (stack :: rest) =
      if HasPrefix (ToString stack.StackName) "eksdemo-" then
        ToString stack.StackName :: eligibleNames rest
      else eligibleNames rest := by
  simp only [eligibleNames, List.map_cons, List.filter_cons]

theorem mem_eligibleNames {n : String} {stackList : List Stack} (h : n ∈ eligibleNames stackList) :
    HasPrefix n "eksdemo-" = true := by
  simp only [eligibleNames, List.mem_filter] at h
  exact h.2

/-- Every name the loop passes to `DeleteStack` is an eligible name of the
list, and the printed names are the attempted ones. -/
theorem deleteLoop_attempted_sub {σ : Type} (client : CloudformationClient σ)
    (stackList : List Stack) (s : σ) :
    (∀ n ∈ (deleteLoop client stackList s).attempted, n ∈ eligibleNames stackList) ∧
      (deleteLoop client stackList s).printed = (deleteLoop client stackList s).attempted := by
  induction stackList generalizing s with
  | nil => simp [deleteLoop]
  | cons stack rest ih =>
    rw [eligibleNames_cons]
    by_cases hp : HasPrefix (ToString stack.StackName) "eksdemo-" = true
    · rcases hd : client.DeleteStack s (ToString stack.StackName) with ⟨s', _ | e⟩
      · have h := ih s'
        simp only [deleteLoop, hp, hd, if_true, List.mem_cons]
        refine ⟨?_, by rw [h.2]⟩
        rintro n (rfl | hn)
        · exact Or.inl rfl
        · exact Or.inr (h.1 n hn)
      · simp [deleteLoop, hp, hd]
    · simp only [deleteLoop, hp]
      exact ih s

/-- When the loop returns no error, it attempted and deleted exactly the
eligible names, in order. -/
theorem deleteLoop_of_no_error {σ : Type} (client : CloudformationClient σ)
    (stackList : List Stack) (s : σ) (h : (deleteLoop client stackList s).err = none) :
    (deleteLoop client stackList s).attempted = eligibleNames stackList ∧
      (deleteLoop client stackList s).deleted = eligibleNames stackList := by
  induction stackList generalizing s with
  | nil => simp [deleteLoop, eligibleNames_nil]
  | cons stack rest ih =>
    rw [eligibleNames_cons]
    by_cases hp : HasPrefix (ToString stack.StackName) "eksdemo-" = true
    · rcases hd : client.DeleteStack s (ToString stack.StackName) with ⟨s', _ | e⟩
      · simp only [deleteLoop, hp, hd, if_true] at h ⊢
        have h' := ih s' h
        simp [h'.1, h'.2]
      · simp [deleteLoop, hp, hd] at h
    · simp only [deleteLoop, hp] at h ⊢
      simpa using ih s h

/-- When the deletions of the eligible names of `pre` succeed one after the
other, the loop over `pre` returns no error and ends in the state they reach. -/
theorem deleteLoop_of_deleteAll {σ : Type} (client : CloudformationClient σ)
    (pre : List Stack) (s s1 : σ) (h : deleteAll client (eligibleNames pre) s = some s1) :
    (deleteLoop client pre s).err = none ∧ (deleteLoop client pre s).state = s1 := by
  induction pre generalizing s with
  | nil =>
    simp only [eligibleNames_nil, deleteAll, Option.some.injEq] at h
    simp [deleteLoop, h]
  | cons stack rest ih =>
    rw [eligibleNames_cons] at h
    by_cases hp : HasPrefix (ToString stack.StackName) "eksdemo-" = true
    · rw [if_pos hp] at h
      rcases hd : client.DeleteStack s (ToString stack.StackName) with ⟨s', _ | e⟩
      · simp only [deleteAll, hd] at h
        simpa [deleteLoop, hp, hd] using ih s' h
      · simp [deleteAll, hd] at h
    · rw [if_neg hp] at h
      simpa [deleteLoop, hp] using ih s h

/-- The loop over `pre ++ x :: post` when the part over `pre` returns no error
and the deletion of the eligible stack `x` fails in the state reached. -/
theorem deleteLoop_first_failure {σ : Type} (client : CloudformationClient σ)
    (pre post : List Stack) (x : Stack) (s : σ) (err : GoError)
    (hpre : (deleteLoop client pre s).err = none)
    (hx : HasPrefix (ToString x.StackName) "eksdemo-" = true)
    (hfail : (client.DeleteStack (deleteLoop client pre s).state (ToString x.StackName)).2
      = some err) :
    (deleteLoop client (pre ++ x :: post) s).err = some err ∧
      (deleteLoop client (pre ++ x :: post) s).attempted
        = eligibleNames pre ++ [ToString x.StackName] ∧
      (deleteLoop client (pre ++ x :: post) s).deleted = eligibleNames pre := by
  induction pre generalizing s with
  | nil =>
    rcases hd : client.DeleteStack s (ToString x.StackName) with ⟨s', _ | e⟩
    · simp [deleteLoop, hd] at hfail
    · simp only [deleteLoop, hd] at hfail
      simp only [Option.some.injEq] at hfail
      simp [deleteLoop, hx, hd, hfail, eligibleNames_nil]
  | cons stack rest ih =>
    rw [eligibleNames_cons]
    by_cases hp : HasPrefix (ToString stack.StackName) "eksdemo-" = true
    · rcases hd : client.DeleteStack s (ToString stack.StackName) with ⟨s', _ | e⟩
      · simp only [deleteLoop, hp, hd, if_true] at hpre hfail
        have h := ih s' hpre hfail
        simp only [List.cons_append, deleteLoop, hp, hd, if_true]
        simp [h.1, h.2.1, h.2.2]
      · simp [deleteLoop, hp, hd] at hpre
    · simp only [deleteLoop, hp] at hpre hfail
      have h := ih s hpre hfail
      simp only [List.cons_append, deleteLoop, hp]
      simpa using h

/-- C1: when the lookup returns `stackList` and the deletions of its eligible
names succeed one after the other, `PreDelete` returns no error and the names
it passes to `DeleteStack` are exactly the names that start with `eksdemo-`,
in lookup order, each of them deleted; no other name is passed to
`DeleteStack`. -/
theorem PreDelete_deletes_eligible {σ : Type} (env : AwsEnv) (client : CloudformationClient σ)
    (s s1 : σ) (o : ClusterOptions) (stackList : List Stack)
    (hlookup : client.GetStacksByCluster s o.ClusterName "" = .ok stackList)
    (hok : deleteAll client
      ((stackList.map fun stack => ToString stack.StackName).filter
        (fun n => HasPrefix n "eksdemo-")) s = some s1) :
    (PreDelete env client s o).2.err = none ∧
      (PreDelete env client s o).2.attempted
        = (stackList.map fun stack => ToString stack.StackName).filter
            (fun n => HasPrefix n "eksdemo-") ∧
      (PreDelete env client s o).2.deleted = (PreDelete env client s o).2.attempted ∧
      (PreDelete env client s o).2.state = s1 ∧
      ∀ n ∈ (PreDelete env client s o).2.attempted, HasPrefix n "eksdemo-" = true := by
  have hrun : (PreDelete env client s o).2 = deleteLoop client stackList s := by
    simp only [PreDelete, hlookup]
  have hloop := deleteLoop_of_deleteAll client stackList s s1 hok
  have hall := deleteLoop_of_no_error client stackList s hloop.1
  rw [hrun]
  refine ⟨hloop.1, hall.1, by rw [hall.1, hall.2], hloop.2, ?_⟩
  intro n hn
  rw [hall.1] at hn
  exact mem_eligibleNames hn

/-- C1, the example of the specification: for `eksdemo-a`, `other-b`,
`eksdemo-c` the deletions are `eksdemo-a` then `eksdemo-c`. -/
theorem PreDelete_deletes_eligible_witness :
    (PreDelete sampleEnv (sampleClient sampleStacks [])
        ["eksdemo-a", "other-b", "eksdemo-c"] {}).2.err = none ∧
      (PreDelete sampleEnv (sampleClient sampleStacks [])
        ["eksdemo-a", "other-b", "eksdemo-c"] {}).2.attempted = ["eksdemo-a", "eksdemo-c"] ∧
      (PreDelete sampleEnv (sampleClient sampleStacks [])
        ["eksdemo-a", "other-b", "eksdemo-c"] {}).2.state = ["other-b"] := by
  have h := PreDelete_deletes_eligible sampleEnv (sampleClient sampleStacks [])
    ["eksdemo-a", "other-b", "eksdemo-c"] ["other-b"] {} sampleStacks rfl (by decide)
  exact ⟨h.1, h.2.1.trans (by decide), h.2.2.2.1⟩

/-- C2: when the lookup returns `pre ++ x :: post`, the deletions of the
eligible stacks of `pre` succeed one after the other and the deletion of the
eligible stack `x` then fails with `err`, `PreDelete` returns exactly `err`,
the names passed to `DeleteStack` are the eligible names of `pre` followed by
the name of `x` (nothing of `post`), and the stacks deleted are the eligible
ones of `pre`. -/
theorem PreDelete_stops_at_first_failure {σ : Type} (env : AwsEnv)
    (client : CloudformationClient σ) (s s1 : σ) (o : ClusterOptions)
    (pre post : List Stack) (x : Stack) (err : GoError)
    (hlookup : client.GetStacksByCluster s o.ClusterName "" = .ok (pre ++ x :: post))
    (hpre : deleteAll client (eligibleNames pre) s = some s1)
    (hx : HasPrefix (ToString x.StackName) "eksdemo-" = true)
    (hfail : (client.DeleteStack s1 (ToString x.StackName)).2 = some err) :
    (PreDelete env client s o).2.err = some err ∧
      (PreDelete env client s o).2.attempted
        = eligibleNames pre ++ [ToString x.StackName] ∧
      (PreDelete env client s o).2.deleted = eligibleNames pre := by
  have hrun : (PreDelete env client s o).2 = deleteLoop client (pre ++ x :: post) s := by
    simp only [PreDelete, hlookup]
  have hloop := deleteLoop_of_deleteAll client pre s s1 hpre
  rw [hrun]
  exact deleteLoop_first_failure client pre post x s err hloop.1 hx
    (by rw [hloop.2]; exact hfail)

/-- C2, the example of the specification: when deleting `eksdemo-a` fails, that
error is returned and `eksdemo-c` is never attempted. -/
theorem PreDelete_stops_at_first_failure_witness :
    (PreDelete sampleEnv (sampleClient sampleStacks ["eksdemo-a"])
        ["eksdemo-a", "other-b", "eksdemo-c"] {}).2.err
        = some { msg := "cannot delete eksdemo-a" } ∧
      (PreDelete sampleEnv (sampleClient sampleStacks ["eksdemo-a"])
        ["eksdemo-a", "other-b", "eksdemo-c"] {}).2.attempted = ["eksdemo-a"] ∧
      (PreDelete sampleEnv (sampleClient sampleStacks ["eksdemo-a"])
        ["eksdemo-a", "other-b", "eksdemo-c"] {}).2.deleted = [] := by
  have h := PreDelete_stops_at_first_failure sampleEnv
    (sampleClient sampleStacks ["eksdemo-a"]) ["eksdemo-a", "other-b", "eksdemo-c"]
    ["eksdemo-a", "other-b", "eksdemo-c"] {}
    [] [⟨some "other-b"⟩, ⟨some "eksdemo-c"⟩] ⟨some "eksdemo-a"⟩
    { msg := "cannot delete eksdemo-a" } rfl rfl (by decide) (by decide)
  exact ⟨h.1, h.2.1.trans (by decide), h.2.2.trans (by decide)⟩

/-! ## Theorems about PreCreate -/

theorem stampIdentity_idem (o : ClusterOptions) (app : ApplicationOptions) :
    stampIdentity o (stampIdentity o app) = stampIdentity o app := rfl

theorem populate_stamp (o : ClusterOptions) (app : ApplicationOptions) (res : Resource) :
    populate o (stampIdentity o app) res = populate o app res := rfl

theorem isIrsa_iff (res : Resource) : isIrsa res = true ↔ res.Name = "irsa" := by
  simp [isIrsa]

theorem isIrsa_bindingRequest (env : AwsEnv) (clusterName : String) (app : Application)
    (res : Resource) : isIrsa (bindingRequest env clusterName app res) = isIrsa res := rfl

theorem dependencyPointers_cons (i j : Nat) (res : Resource) (rest : List Resource) :
    dependencyPointers i j (res :: rest) =
      if isIrsa res then .dependency i j :: dependencyPointers i (j + 1) rest
      else dependencyPointers i (j + 1) rest := by
  by_cases h : isIrsa res = true <;>
    simp [dependencyPointers, List.enumFrom_cons, List.filter_cons, h]

/-- The dependency loop in closed form. -/
theorem dependencyLoop_eq (o : ClusterOptions) (i j : Nat) (deps : List Resource)
    (st : IrsaState) :
    dependencyLoop o i j deps st =
      (deps.map (fun res => if isIrsa res then populate o st.app res else res),
        { app := if deps.any isIrsa then stampIdentity o st.app else st.app
          roles := st.roles ++ dependencyPointers i j deps }) := by
  induction deps generalizing j st with
  | nil => simp [dependencyLoop, dependencyPointers]
  | cons res rest ih =>
    rw [dependencyPointers_cons]
    by_cases h : res.Name = "irsa"
    · have hi : isIrsa res = true := (isIrsa_iff res).2 h
      simp only [dependencyLoop, h, ne_eq, not_true_eq_false, if_false, ih]
      simp only [List.map_cons, List.any_cons, hi, if_true, Bool.true_or,
        List.append_assoc, List.singleton_append]
      have hs : ∀ c : ApplicationOptions,
          ({ ({ ({ ({ c with Account := o.Account } : ApplicationOptions) with
            ClusterName := o.ClusterName } : ApplicationOptions) with
            Region := o.Region } : ApplicationOptions) with
            Partition := o.Partition } : ApplicationOptions) = stampIdentity o c := fun _ => rfl
      simp only [hs, stampIdentity_idem, populate_stamp]
      simp only [populate, ite_self]
      rfl
    · have hi : isIrsa res = false := by
        cases hb : isIrsa res
        · rfl
        · exact absurd ((isIrsa_iff res).1 hb) h
      simp only [dependencyLoop, h, ne_eq, not_false_eq_true, if_true, ih]
      simp [hi]

/-- The application loop in closed form. -/
theorem applicationLoop_eq (o : ClusterOptions) (i : Nat) (apps : List Application)
    (roles : List ResourcePtr) :
    applicationLoop o i apps roles =
      (apps.map (fun app =>
          { Options := if app.Dependencies.any isIrsa then stampIdentity o app.Options
              else app.Options
            Dependencies := app.Dependencies.map
              (fun res => if isIrsa res then populate o app.Options res else res) }),
        roles ++ (apps.enumFrom i).flatMap
          (fun p => dependencyPointers p.1 0 p.2.Dependencies)) := by
  induction apps generalizing i roles with
  | nil => simp [applicationLoop]
  | cons app rest ih =>
    simp only [applicationLoop, dependencyLoop_eq, ih, List.map_cons, List.enumFrom_cons,
      List.flatMap_cons, List.append_assoc]

theorem stampIdentity_resolved (env : AwsEnv) (o : ClusterOptions) (app : ApplicationOptions) :
    stampIdentity (resolved env o) app
      = { app with
          Account := env.AccountId
          ClusterName := o.ClusterName
          Region := env.Region
          Partition := env.Partition } := by
  obtain ⟨c, ⟨ptr, dc, nn⟩, fargate, ipv6, noRoles, pa, priv, vpc, apps, tmpl, roles⟩ := o
  cases ptr <;> rfl

theorem populate_resolved (env : AwsEnv) (o : ClusterOptions) (app : Application) :
    populate (resolved env o) app.Options = bindingRequest env o.ClusterName app := by
  funext res
  unfold populate
  rw [stampIdentity_resolved]
  rfl

/-- The pointer list after `PreCreate`, through the closed form. -/
theorem PreCreate_IrsaRoles (env : AwsEnv) (ngPreCreate : NodegroupPreCreate)
    (o : ClusterOptions) :
    (PreCreate env ngPreCreate o).1.IrsaRoles = o.IrsaRoles ++ irsaPointers o.appsForIrsa := by
  have h : (PreCreate env ngPreCreate o).1.IrsaRoles
      = (applicationLoop (resolved env o) 0 o.appsForIrsa o.IrsaRoles).2 := by
    obtain ⟨c, ⟨ptr, dc, nn⟩, fargate, ipv6, noRoles, pa, priv, vpc, apps, tmpl, roles⟩ := o
    cases ptr <;> rfl
  rw [h, applicationLoop_eq]
  rfl

/-- The candidate applications after `PreCreate`, through the closed form. -/
theorem PreCreate_appsForIrsa (env : AwsEnv) (ngPreCreate : NodegroupPreCreate)
    (o : ClusterOptions) :
    (PreCreate env ngPreCreate o).1.appsForIrsa
      = o.appsForIrsa.map (fun app =>
          { Options :=
              if app.Dependencies.any isIrsa then
                { app.Options with
                  Account := env.AccountId
                  ClusterName := o.ClusterName
                  Region := env.Region
                  Partition := env.Partition }
              else app.Options
            Dependencies := app.Dependencies.map
              (fun res => if isIrsa res then bindingRequest env o.ClusterName app res
                else res) }) := by
  have h : (PreCreate env ngPreCreate o).1.appsForIrsa
      = (applicationLoop (resolved env o) 0 o.appsForIrsa o.IrsaRoles).1 := by
    obtain ⟨c, ⟨ptr, dc, nn⟩, fargate, ipv6, noRoles, pa, priv, vpc, apps, tmpl, roles⟩ := o
    cases ptr <;> rfl
  rw [h, applicationLoop_eq]
  simp only [populate_resolved, stampIdentity_resolved]

theorem dependencyPointers_length (i j : Nat) (deps : List Resource) :
    (dependencyPointers i j deps).length = deps.countP isIrsa := by
  induction deps generalizing j with
  | nil => rfl
  | cons res rest ih =>
    rw [dependencyPointers_cons, List.countP_cons]
    by_cases h : isIrsa res = true
    · simp [h, ih]
    · simp [h, ih]

theorem flatMap_dependencyPointers_length (i : Nat) (apps : List Application) :
    ((apps.enumFrom i).flatMap fun p => dependencyPointers p.1 0 p.2.Dependencies).length
      = irsaPairs apps := by
  induction apps generalizing i with
  | nil => rfl
  | cons app rest ih =>
    simp only [List.enumFrom_cons, List.flatMap_cons, List.length_append, ih,
      dependencyPointers_length]
    simp [irsaPairs]

theorem irsaPointers_length (apps : List Application) :
    (irsaPointers apps).length = irsaPairs apps :=
  flatMap_dependencyPointers_length 0 apps

theorem dependencyPointers_map (i j : Nat) (deps : List Resource) (g : Resource → Resource)
    (hg : ∀ d, isIrsa (g d) = isIrsa d) :
    dependencyPointers i j (deps.map g) = dependencyPointers i j deps := by
  induction deps generalizing j with
  | nil => rfl
  | cons res rest ih =>
    simp only [List.map_cons, dependencyPointers_cons, hg, ih]

theorem irsaExpansion_length (env : AwsEnv) (clusterName : String) (apps : List Application) :
    (irsaExpansion env clusterName apps).length = irsaPairs apps := by
  induction apps with
  | nil => rfl
  | cons app rest ih =>
    simp only [irsaExpansion, List.flatMap_cons, List.length_append, List.length_map] at ih ⊢
    simp only [irsaPairs, List.map_cons, List.sum_cons, List.countP_eq_length_filter] at ih ⊢
    rw [ih]

/-- The number of pairs is the number of applications with an identity-binding
dependency when no application has two of them. -/
theorem irsaPairs_eq_appsWithIrsa (apps : List Application)
    (hone : ∀ app ∈ apps, app.Dependencies.countP isIrsa ≤ 1) :
    irsaPairs apps = appsWithIrsa apps := by
  induction apps with
  | nil => rfl
  | cons app rest ih =>
    have hrest := ih fun a ha => hone a (List.mem_cons_of_mem _ ha)
    have happ := hone app (List.mem_cons_self _ _)
    simp only [irsaPairs, appsWithIrsa, List.map_cons, List.sum_cons, List.countP_cons]
      at hrest ⊢
    rw [hrest]
    by_cases hany : app.Dependencies.any isIrsa = true
    · have hpos : 0 < app.Dependencies.countP isIrsa := by
        rw [List.countP_pos_iff]
        simpa [List.any_eq_true] using hany
      simp only [hany, if_true]
      omega
    · have hzero : app.Dependencies.countP isIrsa = 0 := by
        rw [List.countP_eq_zero]
        intro a ha hi
        exact hany (List.any_eq_true.2 ⟨a, ha, hi⟩)
      simp [hany, hzero]

theorem flatMap_dependencyPointers_map (i : Nat) (apps : List Application)
    (f : Application → Application)
    (hf : ∀ a k, dependencyPointers k 0 (f a).Dependencies
      = dependencyPointers k 0 a.Dependencies) :
    (((apps.map f).enumFrom i).flatMap fun p => dependencyPointers p.1 0 p.2.Dependencies)
      = (apps.enumFrom i).flatMap fun p => dependencyPointers p.1 0 p.2.Dependencies := by
  induction apps generalizing i with
  | nil => rfl
  | cons app rest ih =>
    simp only [List.map_cons, List.enumFrom_cons, List.flatMap_cons, hf, ih]

/-- A run of `PreCreate` leaves the positions of the identity-binding
dependencies as they were. -/
theorem irsaPointers_PreCreate (env : AwsEnv) (ngPreCreate : NodegroupPreCreate)
    (o : ClusterOptions) :
    irsaPointers (PreCreate env ngPreCreate o).1.appsForIrsa = irsaPointers o.appsForIrsa := by
  rw [PreCreate_appsForIrsa]
  apply flatMap_dependencyPointers_map
  intro a k
  apply dependencyPointers_map
  intro d
  by_cases h : isIrsa d = true
  · rw [if_pos h, isIrsa_bindingRequest]
  · rw [if_neg h]

theorem mem_irsaPointers {apps : List Application} {ptr : ResourcePtr}
    (h : ptr ∈ irsaPointers apps) :
    ∃ i j app d, ptr = .dependency i j ∧ apps[i]? = some app ∧
      app.Dependencies[j]? = some d ∧ isIrsa d = true := by
  simp only [irsaPointers, dependencyPointers, List.mem_flatMap, List.mem_map,
    List.mem_filter] at h
  obtain ⟨p, hp, q, ⟨hq, hi⟩, rfl⟩ := h
  have hq' : q ∈ p.2.Dependencies.enum := hq
  exact ⟨p.1, q.1, p.2, q.2, rfl, List.mem_enum_iff_getElem?.1 hp,
    List.mem_enum_iff_getElem?.1 hq', hi⟩

/-- After `PreCreate`, a pointer to an identity-binding dependency points to
the binding request made from that dependency. -/
theorem deref_PreCreate (env : AwsEnv) (ngPreCreate : NodegroupPreCreate) (o : ClusterOptions)
    {i j : Nat} {app : Application} {d : Resource} (happ : o.appsForIrsa[i]? = some app)
    (hd : app.Dependencies[j]? = some d) (hi : isIrsa d = true) :
    (PreCreate env ngPreCreate o).1.deref (.dependency i j)
      = some (bindingRequest env o.ClusterName app d) := by
  simp only [ClusterOptions.deref, PreCreate_appsForIrsa, List.getElem?_map, happ,
    Option.map_some', Option.some_bind, hd, hi, if_true]

/-- After `PreCreate`, the pointers to the identity-binding dependencies point
to the binding requests of the expansion, in order. -/
theorem filterMap_deref_irsaPointers (env : AwsEnv) (ngPreCreate : NodegroupPreCreate)
    (o : ClusterOptions) :
    (irsaPointers o.appsForIrsa).filterMap (PreCreate env ngPreCreate o).1.deref
      = irsaExpansion env o.ClusterName o.appsForIrsa := by
  have hstep : ∀ p ∈ o.appsForIrsa.enum,
      (dependencyPointers p.1 0 p.2.Dependencies).filterMap
          (PreCreate env ngPreCreate o).1.deref
        = (p.2.Dependencies.filter isIrsa).map (bindingRequest env o.ClusterName p.2) := by
    intro p hp
    have happ := List.mem_enum_iff_getElem?.1 hp
    have hq : ∀ q ∈ (p.2.Dependencies.enum.filter fun q => isIrsa q.2),
        (PreCreate env ngPreCreate o).1.deref (.dependency p.1 q.1)
          = (some ∘ fun q : Nat × Resource => bindingRequest env o.ClusterName p.2 q.2) q := by
      intro q hq
      rw [List.mem_filter] at hq
      exact deref_PreCreate env ngPreCreate o happ (List.mem_enum_iff_getElem?.1 hq.1) hq.2
    have hfil : (p.2.Dependencies.enum.filter fun q => isIrsa q.2)
        = p.2.Dependencies.enum.filter (isIrsa ∘ Prod.snd) := rfl
    have hmap : (fun q : Nat × Resource => bindingRequest env o.ClusterName p.2 q.2)
        = bindingRequest env o.ClusterName p.2 ∘ Prod.snd := rfl
    unfold dependencyPointers
    rw [List.filterMap_map]
    change List.filterMap
      (fun q : Nat × Resource => (PreCreate env ngPreCreate o).1.deref (.dependency p.1 q.1))
      (p.2.Dependencies.enum.filter fun q => isIrsa q.2) = _
    rw [List.filterMap_congr hq, List.filterMap_eq_map, hfil, hmap, ← List.map_map,
      ← List.filter_map, List.enum_map_snd]
  unfold irsaPointers
  rw [List.filterMap_flatMap, List.flatMap_congr hstep]
  have h := List.flatMap_map Prod.snd
    (fun app : Application =>
      (app.Dependencies.filter isIrsa).map (bindingRequest env o.ClusterName app))
    o.appsForIrsa.enum
  rw [List.enum_map_snd] at h
  exact h.symm

/-- The pointers that `PreCreate` appended are those of the expansion. -/
theorem PreCreate_appended (env : AwsEnv) (ngPreCreate : NodegroupPreCreate)
    (o : ClusterOptions) :
    (PreCreate env ngPreCreate o).1.IrsaRoles.drop o.IrsaRoles.length
      = irsaPointers o.appsForIrsa := by
  rw [PreCreate_IrsaRoles, List.drop_left]

/-- C3: `PreCreate` appends to the binding-request list exactly one entry per
(application, dependency) pair whose dependency is named `irsa`, in
application order then dependency order: the appended pointers are those
pairs, what they point to afterwards are the binding requests made from them,
and an application contributes as many entries as it has such dependencies.
The other dependencies are skipped and raise no error: the error returned is
the one of the node-group hook. -/
theorem PreCreate_appends_expansion (env : AwsEnv) (ngPreCreate : NodegroupPreCreate)
    (o : ClusterOptions) :
    (PreCreate env ngPreCreate o).1.IrsaRoles
        = o.IrsaRoles ++ o.appsForIrsa.enum.flatMap (fun p =>
            (p.2.Dependencies.enum.filter (fun q => q.2.Name == "irsa")).map
              (fun q => ResourcePtr.dependency p.1 q.1)) ∧
      ((PreCreate env ngPreCreate o).1.IrsaRoles.drop o.IrsaRoles.length).filterMap
          (PreCreate env ngPreCreate o).1.deref
        = o.appsForIrsa.flatMap (fun app =>
            (app.Dependencies.filter (fun res => res.Name == "irsa")).map
              (bindingRequest env o.ClusterName app)) ∧
      (PreCreate env ngPreCreate o).1.IrsaRoles.length
        = o.IrsaRoles.length
          + (o.appsForIrsa.map fun app =>
              app.Dependencies.countP (fun res => res.Name == "irsa")).sum ∧
      (PreCreate env ngPreCreate o).2
        = (ngPreCreate
            { Common :=
                match o.NodegroupOptions.CommonOptions with
                | .cluster =>
                  { o.toCommonOptions with
                    Account := env.AccountId, Partition := env.Partition, Region := env.Region }
                | .other target => { target with KubernetesVersion := o.KubernetesVersion }
              DesiredCapacity := o.NodegroupOptions.DesiredCapacity
              NodegroupName := o.NodegroupOptions.NodegroupName }).2 := by
  refine ⟨PreCreate_IrsaRoles env ngPreCreate o, ?_, ?_, ?_⟩
  · rw [PreCreate_appended]
    exact filterMap_deref_irsaPointers env ngPreCreate o
  · rw [PreCreate_IrsaRoles, List.length_append, irsaPointers_length]
    rfl
  · obtain ⟨c, ⟨ptr, dc, nn⟩, fargate, ipv6, noRoles, pa, priv, vpc, apps, tmpl, roles⟩ := o
    cases ptr <;> rfl

/-- C4, as stated, fails: on the configuration that `addOptions` builds, the
binding-request list after two runs of `PreCreate` differs from the list
after one run, both as a list of pointers and as the list of descriptors they
point to. -/
theorem PreCreate_twice_differs :
    (PreCreate sampleEnv idleNodegroupPreCreate
        (PreCreate sampleEnv idleNodegroupPreCreate sampleOptions).1).1.IrsaRoles
        ≠ (PreCreate sampleEnv idleNodegroupPreCreate sampleOptions).1.IrsaRoles ∧
      (PreCreate sampleEnv idleNodegroupPreCreate
        (PreCreate sampleEnv idleNodegroupPreCreate sampleOptions).1).1.bindingRequests
        ≠ (PreCreate sampleEnv idleNodegroupPreCreate sampleOptions).1.bindingRequests := by
  decide

/-- C4, amended: a second run of `PreCreate` appends one entry per
(application, `irsa` dependency) pair once more, the same entries that the
first run appended, after the list of the first run; so the two lists are
equal exactly when no candidate application has an `irsa` dependency. -/
theorem PreCreate_twice_appends_again (env : AwsEnv) (ngPreCreate : NodegroupPreCreate)
    (o : ClusterOptions) :
    (PreCreate env ngPreCreate o).1.IrsaRoles = o.IrsaRoles ++ irsaPointers o.appsForIrsa ∧
      (PreCreate env ngPreCreate (PreCreate env ngPreCreate o).1).1.IrsaRoles
        = (PreCreate env ngPreCreate o).1.IrsaRoles ++ irsaPointers o.appsForIrsa ∧
      (irsaPointers o.appsForIrsa).length = irsaPairs o.appsForIrsa ∧
      ((PreCreate env ngPreCreate (PreCreate env ngPreCreate o).1).1.IrsaRoles
          = (PreCreate env ngPreCreate o).1.IrsaRoles ↔ irsaPairs o.appsForIrsa = 0) := by
  have htwice : (PreCreate env ngPreCreate (PreCreate env ngPreCreate o).1).1.IrsaRoles
      = (PreCreate env ngPreCreate o).1.IrsaRoles ++ irsaPointers o.appsForIrsa := by
    rw [PreCreate_IrsaRoles env ngPreCreate (PreCreate env ngPreCreate o).1,
      irsaPointers_PreCreate]
  refine ⟨PreCreate_IrsaRoles env ngPreCreate o, htwice, irsaPointers_length _, ?_⟩
  rw [htwice, ← irsaPointers_length]
  constructor
  · intro h
    have h' := congrArg List.length h
    rw [List.length_append] at h'
    omega
  · intro h
    rw [List.length_eq_zero.1 h, List.append_nil]

/-- C5, as stated, fails: one application with two `irsa` dependencies is a
list with exactly one application that has an identity-binding dependency, and
`PreCreate` on an empty binding-request list produces two descriptors. -/
theorem PreCreate_count_exceeds_apps :
    appsWithIrsa [twoRoleApp] = 1 ∧
      (PreCreate sampleEnv idleNodegroupPreCreate
        { ClusterName := "blue", appsForIrsa := [twoRoleApp], IrsaRoles := [] }).1.IrsaRoles.length
        = 2 ∧
      (PreCreate sampleEnv idleNodegroupPreCreate
        { ClusterName := "blue", appsForIrsa := [twoRoleApp], IrsaRoles := []
        }).1.bindingRequests.length = 2 := by
  decide

/-- C5, amended: when the binding-request list is empty and no candidate
application has more than one `irsa` dependency, `PreCreate` produces exactly
as many descriptors as there are applications with an `irsa` dependency. -/
theorem PreCreate_count (env : AwsEnv) (ngPreCreate : NodegroupPreCreate) (o : ClusterOptions)
    (hempty : o.IrsaRoles = [])
    (hone : ∀ app ∈ o.appsForIrsa,
      app.Dependencies.countP (fun res => res.Name == "irsa") ≤ 1) :
    (PreCreate env ngPreCreate o).1.IrsaRoles.length
        = o.appsForIrsa.countP
            (fun app => app.Dependencies.any (fun res => res.Name == "irsa")) ∧
      (PreCreate env ngPreCreate o).1.bindingRequests.length
        = (PreCreate env ngPreCreate o).1.IrsaRoles.length := by
  have hl : (PreCreate env ngPreCreate o).1.IrsaRoles.length
      = o.appsForIrsa.countP
          (fun app => app.Dependencies.any (fun res => res.Name == "irsa")) := by
    rw [PreCreate_IrsaRoles, hempty, List.nil_append, irsaPointers_length,
      irsaPairs_eq_appsWithIrsa _ hone]
    rfl
  refine ⟨hl, ?_⟩
  have hb : (PreCreate env ngPreCreate o).1.bindingRequests
      = irsaExpansion env o.ClusterName o.appsForIrsa := by
    have h := filterMap_deref_irsaPointers env ngPreCreate o
    rw [← PreCreate_appended, hempty] at h
    exact h
  rw [hb, irsaExpansion_length, PreCreate_IrsaRoles, hempty, List.nil_append,
    irsaPointers_length]

/-- C5, amended, on the configuration that `addOptions` builds: three of the
four applications have one `irsa` dependency and three descriptors come out. -/
theorem PreCreate_count_witness :
    sampleOptions.appsForIrsa.length = 4 ∧
      (PreCreate sampleEnv idleNodegroupPreCreate sampleOptions).1.IrsaRoles.length = 3 := by
  have h := PreCreate_count sampleEnv idleNodegroupPreCreate sampleOptions rfl (by decide)
  exact ⟨rfl, h.1.trans (by decide)⟩

/-- C6, as stated, fails: on the configuration that `addOptions` builds, at
version 1.26, with a node-group hook that sets the version it reaches to 1.22,
after `PreCreate` the node-group version is not the version the cluster was
configured with, and the cluster's own version has changed. -/
theorem PreCreate_hook_rewrites_version :
    sampleOptions.KubernetesVersion = "1.26" ∧
      (PreCreate sampleEnv pinningNodegroupPreCreate sampleOptions
        ).1.nodegroupCommon.KubernetesVersion ≠ sampleOptions.KubernetesVersion ∧
      (PreCreate sampleEnv pinningNodegroupPreCreate sampleOptions).1.KubernetesVersion
        ≠ sampleOptions.KubernetesVersion := by
  decide

/-- C6, amended: the node-group options that `PreCreate` hands to the
node-group hook carry the version the cluster is configured with, whatever the
two versions were before the call, and up to that call the cluster's version
is unchanged.  After `PreCreate` the node-group version is the one the hook
leaves, and so is the cluster's when the node-group options share the
cluster's common options, otherwise the cluster's is unchanged; hence both are
the configured version when the hook leaves the version alone, and with shared
common options the two are equal whatever the hook does. -/
theorem PreCreate_hands_over_synced_version (env : AwsEnv) (ngPreCreate : NodegroupPreCreate)
    (o : ClusterOptions) :
    (PreCreate env ngPreCreate o).2 = (ngPreCreate (resolved env o).nodegroupView).2 ∧
      (resolved env o).nodegroupView.Common.KubernetesVersion = o.KubernetesVersion ∧
      (resolved env o).KubernetesVersion = o.KubernetesVersion ∧
      (PreCreate env ngPreCreate o).1.nodegroupCommon.KubernetesVersion
        = (ngPreCreate (resolved env o).nodegroupView).1.Common.KubernetesVersion ∧
      (PreCreate env ngPreCreate o).1.KubernetesVersion
        = (match o.NodegroupOptions.CommonOptions with
          | .cluster => (ngPreCreate (resolved env o).nodegroupView).1.Common.KubernetesVersion
          | .other _ => o.KubernetesVersion) ∧
      ((ngPreCreate (resolved env o).nodegroupView).1.Common.KubernetesVersion
          = (resolved env o).nodegroupView.Common.KubernetesVersion →
        (PreCreate env ngPreCreate o).1.nodegroupCommon.KubernetesVersion
            = o.KubernetesVersion ∧
          (PreCreate env ngPreCreate o).1.KubernetesVersion = o.KubernetesVersion) ∧
      (o.NodegroupOptions.CommonOptions = .cluster →
        (PreCreate env ngPreCreate o).1.nodegroupCommon.KubernetesVersion
          = (PreCreate env ngPreCreate o).1.KubernetesVersion) := by
  obtain ⟨c, ⟨ptr, dc, nn⟩, fargate, ipv6, noRoles, pa, priv, vpc, apps, tmpl, roles⟩ := o
  cases ptr with
  | cluster =>
    refine ⟨rfl, rfl, rfl, rfl, rfl, ?_, fun _ => rfl⟩
    intro h
    exact ⟨h, h⟩
  | other target =>
    refine ⟨rfl, rfl, rfl, rfl, rfl, ?_, ?_⟩
    · intro h
      exact ⟨h, rfl⟩
    · intro h
      cases h

/-- C6, amended, on a configuration whose cluster is at 1.24 and whose
node-group options point to a record at 1.22, with a hook that changes
nothing: after `PreCreate` both are at 1.24. -/
theorem PreCreate_hands_over_synced_version_sample :
    (PreCreate sampleEnv idleNodegroupPreCreate
        { KubernetesVersion := "1.24"
          NodegroupOptions :=
            { CommonOptions := .other { KubernetesVersion := "1.22" } } }
      ).1.nodegroupCommon.KubernetesVersion = "1.24" ∧
      (PreCreate sampleEnv idleNodegroupPreCreate
        { KubernetesVersion := "1.24"
          NodegroupOptions :=
            { CommonOptions := .other { KubernetesVersion := "1.22" } } }
      ).1.KubernetesVersion = "1.24" := by
  decide

/-- C8, as stated, fails: on the configuration that `addOptions` builds, whose
cluster name is still empty, `PreCreate` leaves in the list a descriptor with
an empty cluster name. -/
theorem PreCreate_empty_cluster_name :
    ∃ r ∈ (PreCreate sampleEnv idleNodegroupPreCreate
        (newClusterOptions sampleCollaborators)).1.bindingRequests,
      r.Options.ClusterName = "" := by
  decide

/-- C8, amended: when the resolved account, region and partition and the
configured cluster name are non-empty, every entry that `PreCreate` appends
points to a descriptor that carries them, hence non-empty ones; the entry is
an `irsa` dependency of a candidate application and the descriptor's name is
that application's service-account name.  The applications with an `irsa`
dependency get the resolved account, cluster name, region and partition, the
others keep their options. -/
theorem PreCreate_binding_fields (env : AwsEnv) (ngPreCreate : NodegroupPreCreate)
    (o : ClusterOptions) (hacc : env.AccountId ≠ "") (hreg : env.Region ≠ "")
    (hpart : env.Partition ≠ "") (hname : o.ClusterName ≠ "") :
    (∀ ptr ∈ (PreCreate env ngPreCreate o).1.IrsaRoles.drop o.IrsaRoles.length,
        ∃ r, (PreCreate env ngPreCreate o).1.deref ptr = some r ∧
          (r.Options.Account = env.AccountId ∧ r.Options.Region = env.Region ∧
            r.Options.Partition = env.Partition ∧ r.Options.ClusterName = o.ClusterName) ∧
          (r.Options.Account ≠ "" ∧ r.Options.Region ≠ "" ∧
            r.Options.Partition ≠ "" ∧ r.Options.ClusterName ≠ "") ∧
          ∃ i j app d, ptr = .dependency i j ∧ o.appsForIrsa[i]? = some app ∧
            app.Dependencies[j]? = some d ∧ d.Name = "irsa" ∧ r.Name = "irsa" ∧
            r.Options.Name = app.Options.ServiceAccount ∧
            r.Options.ServiceAccount = app.Options.ServiceAccount) ∧
      (PreCreate env ngPreCreate o).1.appsForIrsa.map (fun app => app.Options)
        = o.appsForIrsa.map (fun app =>
            if app.Dependencies.any (fun res => res.Name == "irsa") then
              { app.Options with
                Account := env.AccountId
                ClusterName := o.ClusterName
                Region := env.Region
                Partition := env.Partition }
            else app.Options) := by
  constructor
  · intro ptr hptr
    rw [PreCreate_appended] at hptr
    obtain ⟨i, j, app, d, rfl, happ, hd, hi⟩ := mem_irsaPointers hptr
    have hn : d.Name = "irsa" := (isIrsa_iff d).1 hi
    exact ⟨_, deref_PreCreate env ngPreCreate o happ hd hi, ⟨rfl, rfl, rfl, rfl⟩,
      ⟨hacc, hreg, hpart, hname⟩, i, j, app, d, rfl, happ, hd, hn, hn, rfl, rfl⟩
  · rw [PreCreate_appsForIrsa, List.map_map]
    apply List.map_congr_left
    intro app _
    simp only [Function.comp]
    rfl

/-- C8, amended, on the configuration that `addOptions` builds, named `blue`:
the first descriptor carries the resolved identity and the service-account
name of the load-balancer controller. -/
theorem PreCreate_binding_fields_witness :
    (PreCreate sampleEnv idleNodegroupPreCreate sampleOptions).1.bindingRequests.head?
      = some
          { Name := "irsa"
            Options :=
              { Name := "aws-load-balancer-controller"
                Account := "123456789012"
                ClusterName := "blue"
                Namespace := "awslb"
                Partition := "aws"
                Region := "us-west-2"
                ServiceAccount := "aws-load-balancer-controller" } } ∧
      ∀ ptr ∈ (PreCreate sampleEnv idleNodegroupPreCreate sampleOptions).1.IrsaRoles.drop
          sampleOptions.IrsaRoles.length,
        ∃ r, (PreCreate sampleEnv idleNodegroupPreCreate sampleOptions).1.deref ptr = some r ∧
          r.Options.Account ≠ "" ∧ r.Options.Region ≠ "" ∧
          r.Options.Partition ≠ "" ∧ r.Options.ClusterName ≠ "" := by
  have h := PreCreate_binding_fields sampleEnv idleNodegroupPreCreate sampleOptions
    (by decide) (by decide) (by decide) (by decide)
  refine ⟨by decide, fun ptr hptr => ?_⟩
  obtain ⟨r, hr, _, hne, _⟩ := h.1 ptr hptr
  exact ⟨r, hr, hne⟩

/-- C9: `SetName n` sets the cluster name to `n` and leaves every other field
as it was, and a `PreCreate` that follows scopes to `n` every application with
an `irsa` dependency and every binding request it appends. -/
theorem SetName_then_PreCreate (env : AwsEnv) (ngPreCreate : NodegroupPreCreate)
    (o : ClusterOptions) (n : String) :
    ((o.SetName n).ClusterName = n ∧
        (o.SetName n).Name = o.Name ∧ (o.SetName n).Account = o.Account ∧
        (o.SetName n).ClusterFlagDisabled = o.ClusterFlagDisabled ∧
        (o.SetName n).KubernetesVersion = o.KubernetesVersion ∧
        (o.SetName n).Namespace = o.Namespace ∧ (o.SetName n).Partition = o.Partition ∧
        (o.SetName n).Region = o.Region ∧ (o.SetName n).ServiceAccount = o.ServiceAccount ∧
        (o.SetName n).NodegroupOptions = o.NodegroupOptions ∧
        (o.SetName n).Fargate = o.Fargate ∧ (o.SetName n).IPv6 = o.IPv6 ∧
        (o.SetName n).NoRoles = o.NoRoles ∧
        (o.SetName n).PrefixAssignment = o.PrefixAssignment ∧
        (o.SetName n).Private = o.Private ∧ (o.SetName n).VpcCidr = o.VpcCidr ∧
        (o.SetName n).appsForIrsa = o.appsForIrsa ∧
        (o.SetName n).IrsaTemplate = o.IrsaTemplate ∧
        (o.SetName n).IrsaRoles = o.IrsaRoles) ∧
      ((PreCreate env ngPreCreate (o.SetName n)).1.IrsaRoles.drop o.IrsaRoles.length).filterMap
          (PreCreate env ngPreCreate (o.SetName n)).1.deref
        = irsaExpansion env n o.appsForIrsa ∧
      (∀ ptr ∈ (PreCreate env ngPreCreate (o.SetName n)).1.IrsaRoles.drop o.IrsaRoles.length,
        ∃ r, (PreCreate env ngPreCreate (o.SetName n)).1.deref ptr = some r ∧
          r.Options.ClusterName = n) ∧
      (∀ app ∈ (PreCreate env ngPreCreate (o.SetName n)).1.appsForIrsa,
        app.Dependencies.any (fun res => res.Name == "irsa") = true →
          app.Options.ClusterName = n) := by
  have happ := PreCreate_appended env ngPreCreate (o.SetName n)
  have hlen : (o.SetName n).IrsaRoles.length = o.IrsaRoles.length := rfl
  rw [hlen] at happ
  refine ⟨⟨rfl, rfl, rfl, rfl, rfl, rfl, rfl, rfl, rfl, rfl, rfl, rfl, rfl, rfl, rfl, rfl, rfl,
    rfl, rfl⟩, ?_, ?_, ?_⟩
  · rw [happ]
    exact filterMap_deref_irsaPointers env ngPreCreate (o.SetName n)
  · intro ptr hptr
    rw [happ] at hptr
    obtain ⟨i, j, app, d, rfl, ha, hd, hi⟩ := mem_irsaPointers hptr
    exact ⟨_, deref_PreCreate env ngPreCreate (o.SetName n) ha hd hi, rfl⟩
  · intro app happ' hany
    rw [PreCreate_appsForIrsa, List.mem_map] at happ'
    obtain ⟨a, _, rfl⟩ := happ'
    have hany' : a.Dependencies.any isIrsa = true := by
      simp only [List.any_map] at hany
      rw [List.any_eq_true] at hany ⊢
      obtain ⟨d, hd, hi⟩ := hany
      refine ⟨d, hd, ?_⟩
      simp only [Function.comp] at hi
      by_cases hd' : isIrsa d = true
      · exact hd'
      · rw [if_neg hd'] at hi
        exact absurd hi hd'
    simp only [hany', if_true]
    rfl

/-! ## Theorems about the option composer -/

/-- C7: the `vpc-cidr` flag built by `addOptions` carries a validator, the
closure `vpcCidrValidate`.  It returns no error exactly when the stored VPC
range is a valid CIDR; when the parse fails with `err` it returns the error
whose text is `failed parsing --vpc-cidr, ` followed by the text of `err` and
which wraps `err`; in both cases the stored options are unchanged. -/
theorem vpcCidrValidate_spec (ParseCIDR : CIDRParser) (options : ClusterOptions)
    (cmd : CobraCommand) (args : List String) :
    (vpcCidrValidate ParseCIDR options cmd args).1 = options ∧
      ((vpcCidrValidate ParseCIDR options cmd args).2 = none
        ↔ validCIDR ParseCIDR options.VpcCidr = true) ∧
      (∀ err, ParseCIDR options.VpcCidr = .error err →
        (vpcCidrValidate ParseCIDR options cmd args).2
          = some { msg := "failed parsing --vpc-cidr, " ++ err.msg
                   chain := err.msg :: err.chain }) ∧
      (validCIDR ParseCIDR options.VpcCidr = false →
        ∃ err, ParseCIDR options.VpcCidr = .error err ∧
          (vpcCidrValidate ParseCIDR options cmd args).2
            = some (Errorf_w "failed parsing --vpc-cidr, " err)) ∧
      (∃ f ∈ clusterFlags ParseCIDR, f.Name = "vpc-cidr" ∧
        ∃ v, f.Common.Validate = some v ∧
          v options cmd args = vpcCidrValidate ParseCIDR options cmd args) := by
  refine ⟨?_, ?_, ?_, ?_, ?_⟩
  · unfold vpcCidrValidate
    cases ParseCIDR options.VpcCidr <;> rfl
  · unfold vpcCidrValidate validCIDR
    cases ParseCIDR options.VpcCidr <;> simp
  · intro err herr
    unfold vpcCidrValidate
    rw [herr]
    rfl
  · intro hbad
    unfold validCIDR at hbad
    unfold vpcCidrValidate
    cases hp : ParseCIDR options.VpcCidr with
    | error err => exact ⟨err, rfl, rfl⟩
    | ok v => rw [hp] at hbad; cases hbad
  · refine ⟨_, List.getLast_mem (l := clusterFlags ParseCIDR) (by simp [clusterFlags]), ?_⟩
    exact ⟨rfl, _, rfl, rfl⟩

/-- The validator on two stored values, with the sample parser: the default
range is accepted, a range without a mask is rejected with the wrapped parse
error, and the options stay as they were. -/
theorem vpcCidrValidate_sample :
    vpcCidrValidate sampleParseCIDR sampleOptions {} [] = (sampleOptions, none) ∧
      vpcCidrValidate sampleParseCIDR { sampleOptions with VpcCidr := "10.0.0.0" } {} []
        = ({ sampleOptions with VpcCidr := "10.0.0.0" },
            some { msg := "failed parsing --vpc-cidr, invalid CIDR address: 10.0.0.0"
                   chain := ["invalid CIDR address: 10.0.0.0"] }) := by
  decide

/-- C10: the create flags that `addOptions` builds are the inherited
node-group flags, in their order, followed by exactly the seven cluster flags
`version`, `fargate`, `ipv6`, `no-roles`, `prefix-assignment`, `private`,
`vpc-cidr`; the options it builds have Kubernetes version `1.26`, one of the
choices `1.26` to `1.22` of the `version` flag, desired capacity 2, node-group
name `main` and VPC range `192.168.0.0/16`. -/
theorem addOptions_flags_and_defaults (k : Collaborators) (res : ClusterResource) :
    (∃ flags, (addOptions k res).CreateFlags = k.ngFlags ++ flags ∧
        flags.map Flag.Name
          = ["version", "fargate", "ipv6", "no-roles", "prefix-assignment", "private",
              "vpc-cidr"] ∧
        flags.head?.map Flag.Choices = some ["1.26", "1.25", "1.24", "1.23", "1.22"]) ∧
      (addOptions k res).CreateFlags.map Flag.Name
        = k.ngFlags.map Flag.Name
          ++ ["version", "fargate", "ipv6", "no-roles", "prefix-assignment", "private",
              "vpc-cidr"] ∧
      (∃ options, (addOptions k res).Options = some options ∧
        options.KubernetesVersion = "1.26" ∧
        options.KubernetesVersion ∈ ["1.26", "1.25", "1.24", "1.23", "1.22"] ∧
        options.NodegroupOptions.DesiredCapacity = 2 ∧
        options.NodegroupOptions.NodegroupName = "main" ∧
        options.VpcCidr = "192.168.0.0/16") := by
  refine ⟨⟨clusterFlags k.ParseCIDR, rfl, rfl, rfl⟩, ?_, newClusterOptions k, rfl, rfl, ?_,
    rfl, rfl, rfl⟩
  · simp only [addOptions, List.map_append]
    rfl
  · exact List.mem_cons_self _ _

end Eksdemo

